/-
Verification of the natural-language specification of the
`openvino_notebooks` repository (a collection of Jupyter notebooks that
demonstrate converting, quantizing and benchmarking pretrained models with
OpenVINO and NNCF).

The repository contains thirteen notebooks (the file
`notebooks/105-language-quantize-bert/105-language-quantize-bert.ipynb`
holds two concatenated notebook documents: the BERT MRPC quantization
tutorial and a Wav2Vec2 speech-recognition quantization tutorial; the three
unnamed source files `part_000`, `part_001`, `part_002` are the named-entity
recognition demo, the CT-scan segmentation quantization tutorial and the
PaddleGAN photo-to-anime conversion demo; `part_003` holds two GitHub CI
workflow files and `part_004` a Pipfile, neither of which is a notebook).

Two kinds of facts are verified here:
* facts about the structure of the notebook collection (which pipeline
  steps each notebook performs and through which mechanism) — each notebook
  is embedded as a record whose fields are transcribed from the notebook
  source, with the evidence cited next to every record; and
* facts about the three self-contained algorithms the notebooks define:
  `run_analyze_entities` and `find_best_entity_window` from the NER demo
  and `get_top_k_logits` from the GPT-2 demo, embedded as executable Lean
  functions over lists of rationals.
-/
import Mathlib

/-- Pipeline step kinds named by the specification sentence
"download a pretrained model and dataset, export to ONNX, convert to
OpenVINO IR, optionally quantize with NNCF/POT, run accuracy validation,
and benchmark throughput/latency using the benchmark_app CLI tool". -/
inductive Step where
  | download
  | exportOnnx
  | convertIR
  | quantize
  | validate
  | benchmark
  deriving DecidableEq, Repr

/-- How a notebook drives one of the OpenVINO developer tools
(Model Optimizer, POT, benchmark_app): not at all, as a shell command
(`!mo`, `!pot`, `! benchmark_app`), or through the in-process Python API
(`openvino.tools.mo.convert_model`, the `openvino.tools.pot` classes). -/
inductive ToolMode where
  | notUsed
  | cli
  | pythonApi
  deriving DecidableEq, Repr

/-- Concurrency mechanism used for asynchronous inference, when any:
`InferRequest.start_async` / `wait`, `AsyncInferQueue` (both OpenVINO
runtime primitives) or Open Model Zoo's AsyncPipeline reached through the
`show_live_inference` helper. -/
inductive AsyncUse where
  | noAsync
  | ovInferRequestAsync
  | ovAsyncInferQueue
  | omzAsyncPipeline
  deriving DecidableEq, Repr

/-- Shallow embedding of one notebook: the pipeline step kinds it executes
(in order of first occurrence in the executed cells), how it drives the
`mo`, `pot` and `benchmark_app` tools, whether it quantizes through the
NNCF Python API, whether it times inference with its own
`time.perf_counter()` / `time.time()` loop, whether it defines its own
implementation of quantization / NMS / IR conversion (as opposed to calling
the external libraries), whether it uses non-maximum suppression and where
that comes from, which asynchronous-inference mechanism it uses, and
whether it defines a scheduler, protocol, cache or concurrency primitive of
its own.  Every field is transcribed from the notebook source cited in the
record's doc comment. -/
structure Notebook where
  name : String
  steps : List Step
  moMode : ToolMode
  potMode : ToolMode
  benchmarkMode : ToolMode
  quantizesViaNncfApi : Bool
  ownTimingLoop : Bool
  definesOwnQuantizationAlgo : Bool
  definesOwnNms : Bool
  definesOwnIRConverter : Bool
  usesNms : Bool
  nmsFromExternalLib : Bool
  asyncUse : AsyncUse
  definesOwnScheduler : Bool
  definesOwnProtocol : Bool
  definesOwnCache : Bool
  definesOwnConcurrencyPrimitive : Bool
  deriving DecidableEq, Repr

/-- `105-language-quantize-bert` (first document in the file).  Downloads
the MRPC BERT model archive (`download_file`, line 112), exports it to ONNX
(`torch.onnx.export` through `export_model_to_onnx`, lines 143-172),
converts with the `mo` CLI (line 202), evaluates the original model with
`pipeline.evaluate` (POT, line 464), quantizes with the `openvino.tools.pot`
Python API (`pipeline.run`, line 486), and benchmarks with the
`benchmark_app` CLI (lines 711, 730).  It also times inference itself with
`time.perf_counter` (lines 653-676).  No NMS, no async inference, no own
implementation of quantization or conversion. -/
def nb105bert : Notebook :=
  { name := "105-language-quantize-bert"
    steps := [Step.download, Step.exportOnnx, Step.convertIR, Step.validate,
              Step.quantize, Step.benchmark]
    moMode := ToolMode.cli
    potMode := ToolMode.pythonApi
    benchmarkMode := ToolMode.cli
    quantizesViaNncfApi := false
    ownTimingLoop := true
    definesOwnQuantizationAlgo := false
    definesOwnNms := false
    definesOwnIRConverter := false
    usesNms := false
    nmsFromExternalLib := false
    asyncUse := AsyncUse.noAsync
    definesOwnScheduler := false
    definesOwnProtocol := false
    definesOwnCache := false
    definesOwnConcurrencyPrimitive := false }

/-- Wav2Vec2 speech-recognition quantization tutorial (second document in
the `105-language-quantize-bert` file, from line 762).  Downloads the
Wav2Vec2 checkpoint (`download_file`, file lines 865-866), exports to ONNX
(`torch.onnx.export`, line 902), converts with the `mo` CLI (line 949),
evaluates the original model (`pipeline.evaluate`, line 1257), quantizes
with the `openvino.tools.pot` Python API (`pipeline.run`, line 1278) and
benchmarks with the `benchmark_app` CLI (lines 1423, 1439).  Times the POT
evaluation and quantization with `time.perf_counter` (lines 1256-1279). -/
def nb107wav2vec2 : Notebook :=
  { name := "107-speech-recognition-quantization"
    steps := [Step.download, Step.exportOnnx, Step.convertIR, Step.validate,
              Step.quantize, Step.benchmark]
    moMode := ToolMode.cli
    potMode := ToolMode.pythonApi
    benchmarkMode := ToolMode.cli
    quantizesViaNncfApi := false
    ownTimingLoop := true
    definesOwnQuantizationAlgo := false
    definesOwnNms := false
    definesOwnIRConverter := false
    usesNms := false
    nmsFromExternalLib := false
    asyncUse := AsyncUse.noAsync
    definesOwnScheduler := false
    definesOwnProtocol := false
    definesOwnCache := false
    definesOwnConcurrencyPrimitive := false }

/-- CT-scan kidney segmentation quantization tutorial (unnamed source file
`part_001`).  Downloads the pretrained UNet state dict (`download_file`,
line 199), exports to ONNX (`torch.onnx.export`, line 229), converts with
the `mo` CLI (lines 230, 541), computes the F1 score of the FP32 model
(`compute_f1`, line 431), quantizes with NNCF
(`create_compressed_model`, line 497), benchmarks with the `benchmark_app`
CLI (lines 641, 656) and shows live inference with Open Model Zoo's
AsyncPipeline through `show_live_inference` (line 806). -/
def nb110ct : Notebook :=
  { name := "110-ct-segmentation-quantize"
    steps := [Step.download, Step.exportOnnx, Step.convertIR, Step.validate,
              Step.quantize, Step.benchmark]
    moMode := ToolMode.cli
    potMode := ToolMode.notUsed
    benchmarkMode := ToolMode.cli
    quantizesViaNncfApi := true
    ownTimingLoop := false
    definesOwnQuantizationAlgo := false
    definesOwnNms := false
    definesOwnIRConverter := false
    usesNms := false
    nmsFromExternalLib := false
    asyncUse := AsyncUse.omzAsyncPipeline
    definesOwnScheduler := false
    definesOwnProtocol := false
    definesOwnCache := false
    definesOwnConcurrencyPrimitive := false }

/-- `112-pytorch-post-training-quantization-nncf`.  Downloads the ResNet-50
checkpoint and the Tiny ImageNet archive (`download_file`, lines 176, 201),
validates the FP32 model (line 481), exports to ONNX (`torch.onnx.export`,
line 499), quantizes with NNCF (`create_compressed_model`, line 575),
converts both ONNX models with the `mo` CLI (lines 645, 656) and benchmarks
with the `benchmark_app` CLI (lines 689, 693).  Its `validate` helper times
batches with `time.time()` (lines 332-347). -/
def nb112resnet : Notebook :=
  { name := "112-pytorch-post-training-quantization-nncf"
    steps := [Step.download, Step.validate, Step.exportOnnx, Step.quantize,
              Step.convertIR, Step.benchmark]
    moMode := ToolMode.cli
    potMode := ToolMode.notUsed
    benchmarkMode := ToolMode.cli
    quantizesViaNncfApi := true
    ownTimingLoop := true
    definesOwnQuantizationAlgo := false
    definesOwnNms := false
    definesOwnIRConverter := false
    usesNms := false
    nmsFromExternalLib := false
    asyncUse := AsyncUse.noAsync
    definesOwnScheduler := false
    definesOwnProtocol := false
    definesOwnCache := false
    definesOwnConcurrencyPrimitive := false }

/-- `114-quantization-simplified-mode`.  Downloads a pretrained CIFAR-10
ResNet-20 (`torch.hub.load`, line 110), exports to ONNX (line 117),
converts with the `mo` CLI (line 133), quantizes with the `pot` CLI in
simplified mode (line 152) and benchmarks with the `benchmark_app` CLI
(lines 184, 194).  Performs no accuracy validation (simplified mode cannot
control accuracy, line 13).  The demonstration cells run inference with
`infer_request.start_async()` immediately followed by `wait()`
(lines 289-290). -/
def nb114simplified : Notebook :=
  { name := "114-quantization-simplified-mode"
    steps := [Step.download, Step.exportOnnx, Step.convertIR, Step.quantize,
              Step.benchmark]
    moMode := ToolMode.cli
    potMode := ToolMode.cli
    benchmarkMode := ToolMode.cli
    quantizesViaNncfApi := false
    ownTimingLoop := false
    definesOwnQuantizationAlgo := false
    definesOwnNms := false
    definesOwnIRConverter := false
    usesNms := false
    nmsFromExternalLib := false
    asyncUse := AsyncUse.ovInferRequestAsync
    definesOwnScheduler := false
    definesOwnProtocol := false
    definesOwnCache := false
    definesOwnConcurrencyPrimitive := false }

/-- Named-entity-recognition demo (unnamed source file `part_000`).
Downloads an already-converted INT8 BERT IR model with the
`omz_downloader` CLI (lines 90-95) and runs entity extraction on sample
texts.  No ONNX export, no IR conversion, no quantization, no accuracy
validation and no benchmarking; `run_analyze_entities` measures its own
processing time with `time.perf_counter` (lines 413-423). -/
def nb204ner : Notebook :=
  { name := "204-named-entity-recognition"
    steps := [Step.download]
    moMode := ToolMode.notUsed
    potMode := ToolMode.notUsed
    benchmarkMode := ToolMode.notUsed
    quantizesViaNncfApi := false
    ownTimingLoop := true
    definesOwnQuantizationAlgo := false
    definesOwnNms := false
    definesOwnIRConverter := false
    usesNms := false
    nmsFromExternalLib := false
    asyncUse := AsyncUse.noAsync
    definesOwnScheduler := false
    definesOwnProtocol := false
    definesOwnCache := false
    definesOwnConcurrencyPrimitive := false }

/-- PaddleGAN photo-to-anime conversion demo (unnamed source file
`part_002`).  Downloads the AnimeGAN weights (through the
`AnimeGANPredictor`, lines 151-152), exports to ONNX
(`paddle.onnx.export`, line 288) and converts with the `mo` CLI
(line 364).  It never invokes `benchmark_app`; instead it measures
inference time of the Paddle and OpenVINO models with
`time.perf_counter` loops (lines 547-556 and 583-588).  No quantization
and no accuracy validation. -/
def nb206anime : Notebook :=
  { name := "206-vision-paddlegan-anime"
    steps := [Step.download, Step.exportOnnx, Step.convertIR]
    moMode := ToolMode.cli
    potMode := ToolMode.notUsed
    benchmarkMode := ToolMode.notUsed
    quantizesViaNncfApi := false
    ownTimingLoop := true
    definesOwnQuantizationAlgo := false
    definesOwnNms := false
    definesOwnIRConverter := false
    usesNms := false
    nmsFromExternalLib := false
    asyncUse := AsyncUse.noAsync
    definesOwnScheduler := false
    definesOwnProtocol := false
    definesOwnCache := false
    definesOwnConcurrencyPrimitive := false }

/-- `212-onnx-style-transfer`.  Downloads five pre-trained ONNX style
transfer models (`download_file`, line 98) and runs them directly with
OpenVINO (`ie.read_model` on the `.onnx` files, line 200).  No export, no
IR conversion, no quantization, no validation, no benchmarking and no
timing loops. -/
def nb212style : Notebook :=
  { name := "212-onnx-style-transfer"
    steps := [Step.download]
    moMode := ToolMode.notUsed
    potMode := ToolMode.notUsed
    benchmarkMode := ToolMode.notUsed
    quantizesViaNncfApi := false
    ownTimingLoop := false
    definesOwnQuantizationAlgo := false
    definesOwnNms := false
    definesOwnIRConverter := false
    usesNms := false
    nmsFromExternalLib := false
    asyncUse := AsyncUse.noAsync
    definesOwnScheduler := false
    definesOwnProtocol := false
    definesOwnCache := false
    definesOwnConcurrencyPrimitive := false }

/-- `214-vision-paddle-classification`.  Downloads a PaddlePaddle
MobileNetV3 archive (`urllib.request.urlretrieve`, line 73), reads the
Paddle model directly without conversion (line 148; the notebook says so
explicitly at line 9), runs asynchronous inference with OpenVINO's
`AsyncInferQueue` (lines 233, 283, 320) while measuring latency and
throughput with `time.time()` (lines 116, 125, 235-291), and benchmarks
with the `benchmark_app` CLI (lines 354, 365).  The completion `callback`
it registers (lines 100-110) is a plain function handed to the library
queue, not a concurrency primitive of its own. -/
def nb214paddle : Notebook :=
  { name := "214-vision-paddle-classification"
    steps := [Step.download, Step.benchmark]
    moMode := ToolMode.notUsed
    potMode := ToolMode.notUsed
    benchmarkMode := ToolMode.cli
    quantizesViaNncfApi := false
    ownTimingLoop := true
    definesOwnQuantizationAlgo := false
    definesOwnNms := false
    definesOwnIRConverter := false
    usesNms := false
    nmsFromExternalLib := false
    asyncUse := AsyncUse.ovAsyncInferQueue
    definesOwnScheduler := false
    definesOwnProtocol := false
    definesOwnCache := false
    definesOwnConcurrencyPrimitive := false }

/-- `223-gpt2-text-prediction`.  Downloads GPT-2 with
`GPT2LMHeadModel.from_pretrained` (lines 45-46), exports to ONNX with
`transformers.onnx.export` (line 89) and converts with the
`openvino.tools.mo.convert_model` Python API (line 92, serialized at
line 93).  No quantization, no accuracy validation, no `benchmark_app`;
generation time is measured with `time.perf_counter` (lines 366-368). -/
def nb223gpt2 : Notebook :=
  { name := "223-gpt2-text-prediction"
    steps := [Step.download, Step.exportOnnx, Step.convertIR]
    moMode := ToolMode.pythonApi
    potMode := ToolMode.notUsed
    benchmarkMode := ToolMode.notUsed
    quantizesViaNncfApi := false
    ownTimingLoop := true
    definesOwnQuantizationAlgo := false
    definesOwnNms := false
    definesOwnIRConverter := false
    usesNms := false
    nmsFromExternalLib := false
    asyncUse := AsyncUse.noAsync
    definesOwnScheduler := false
    definesOwnProtocol := false
    definesOwnCache := false
    definesOwnConcurrencyPrimitive := false }

/-- `226-yolov7-optimization`.  Clones the upstream YOLOv7 repository
(line 91) and downloads the pretrained weights (`download_file`,
line 108), exports to ONNX with the repository's `export.py` (line 190),
converts with the `openvino.tools.mo.convert_model` Python API (line 212,
serialized at line 214), verifies FP32 accuracy (section from line 420),
quantizes with `nncf.quantize` (line 724) and benchmarks with the
`benchmark_app` CLI (lines 802, 812).  Non-maximum suppression is imported
from the cloned YOLOv7 repository (`from utils.general import
non_max_suppression`, line 339) — the notebook defines no NMS of its
own. -/
def nb226yolov7 : Notebook :=
  { name := "226-yolov7-optimization"
    steps := [Step.download, Step.exportOnnx, Step.convertIR, Step.validate,
              Step.quantize, Step.benchmark]
    moMode := ToolMode.pythonApi
    potMode := ToolMode.notUsed
    benchmarkMode := ToolMode.cli
    quantizesViaNncfApi := true
    ownTimingLoop := false
    definesOwnQuantizationAlgo := false
    definesOwnNms := false
    definesOwnIRConverter := false
    usesNms := true
    nmsFromExternalLib := true
    asyncUse := AsyncUse.noAsync
    definesOwnScheduler := false
    definesOwnProtocol := false
    definesOwnCache := false
    definesOwnConcurrencyPrimitive := false }

/-- `302-pytorch-quantization-aware-training`.  Downloads the ResNet-18
checkpoint and Tiny ImageNet (`download_file`, lines 160, 198); with the
default `pretrained_on_tiny_imagenet = True` (line 158) the training loop
is skipped and the FP32 accuracy is read from the checkpoint, so the first
executed validation is of the initialized INT8 model (line 695) right after
`create_compressed_model` (line 675).  Exports the FP32 model to ONNX
(line 585), converts both ONNX models with the `mo` CLI (lines 780, 794)
and benchmarks with the `benchmark_app` CLI (lines 824, 828).  Its `train`
and `validate` helpers time batches with `time.time()` (lines 274-348). -/
def nb302qat : Notebook :=
  { name := "302-pytorch-quantization-aware-training"
    steps := [Step.download, Step.exportOnnx, Step.quantize, Step.validate,
              Step.convertIR, Step.benchmark]
    moMode := ToolMode.cli
    potMode := ToolMode.notUsed
    benchmarkMode := ToolMode.cli
    quantizesViaNncfApi := true
    ownTimingLoop := true
    definesOwnQuantizationAlgo := false
    definesOwnNms := false
    definesOwnIRConverter := false
    usesNms := false
    nmsFromExternalLib := false
    asyncUse := AsyncUse.noAsync
    definesOwnScheduler := false
    definesOwnProtocol := false
    definesOwnCache := false
    definesOwnConcurrencyPrimitive := false }

/-- `305-tensorflow-quantization-aware-training`.  Downloads the ResNet-18
Keras weights (`tf.keras.utils.get_file`, line 92), evaluates the FP32
model (`model.evaluate`, line 268), quantizes with NNCF
(`create_compressed_model`, line 362), converts both saved models with the
`mo` CLI (lines 465, 475) and benchmarks with the `benchmark_app` CLI
(lines 505, 509).  No ONNX export (the TensorFlow models are converted
directly) and no timing loops of its own. -/
def nb305tfqat : Notebook :=
  { name := "305-tensorflow-quantization-aware-training"
    steps := [Step.download, Step.validate, Step.quantize, Step.convertIR,
              Step.benchmark]
    moMode := ToolMode.cli
    potMode := ToolMode.notUsed
    benchmarkMode := ToolMode.cli
    quantizesViaNncfApi := true
    ownTimingLoop := false
    definesOwnQuantizationAlgo := false
    definesOwnNms := false
    definesOwnIRConverter := false
    usesNms := false
    nmsFromExternalLib := false
    asyncUse := AsyncUse.noAsync
    definesOwnScheduler := false
    definesOwnProtocol := false
    definesOwnCache := false
    definesOwnConcurrencyPrimitive := false }

/-- All thirteen notebooks of the repository. -/
def notebooks : List Notebook :=
  [nb105bert, nb107wav2vec2, nb110ct, nb112resnet, nb114simplified,
   nb204ner, nb206anime, nb212style, nb214paddle, nb223gpt2, nb226yolov7,
   nb302qat, nb305tfqat]

/-- The no-omission half of claim C1 for a single notebook: every
non-optional step of the stated pipeline (download, export to ONNX,
convert to IR, accuracy validation, benchmark with benchmark_app) is
performed.  The claim as stated additionally demands the canonical order,
so refuting this weaker predicate refutes the claim. -/
abbrev performsFullPipeline (nb : Notebook) : Prop :=
  Step.download ∈ nb.steps ∧ Step.exportOnnx ∈ nb.steps ∧
  Step.convertIR ∈ nb.steps ∧ Step.validate ∈ nb.steps ∧
  Step.benchmark ∈ nb.steps

/-- Claim C3 for a single notebook: if the notebook measures performance at
all, the measurement is an invocation of the `benchmark_app` CLI tool and
not a timing loop of the notebook's own. -/
abbrev benchmarksOnlyViaBenchmarkApp (nb : Notebook) : Prop :=
  (nb.benchmarkMode ≠ ToolMode.notUsed ∨ nb.ownTimingLoop = true) →
    (nb.benchmarkMode = ToolMode.cli ∧ nb.ownTimingLoop = false)

/-- Claim C4 for a single notebook: whichever of the `mo`, `pot` and
`benchmark_app` tools the notebook drives, it drives as a CLI shell
command, never through the in-process Python API. -/
abbrev drivesToolsViaCliOnly (nb : Notebook) : Prop :=
  (nb.moMode ≠ ToolMode.notUsed → nb.moMode = ToolMode.cli) ∧
  (nb.potMode ≠ ToolMode.notUsed → nb.potMode = ToolMode.cli) ∧
  (nb.benchmarkMode ≠ ToolMode.notUsed → nb.benchmarkMode = ToolMode.cli)

/-
The named-entity-recognition demo (unnamed source file `part_000`):
`run_analyze_entities` (lines 400-427).
-/

/-- The entity template of the NER notebook (lines 386-387). -/
def template : List String :=
  ["building", "company", "persons", "city", "state", "height", "floor",
   "address"]

/-- Observable outcome of one `run_analyze_entities` call: the error
message printed (if any), how many times the compiled model is invoked
(`get_best_entity` calls `compiled_model(network_input)` once per template
field), and whether the JSON extraction result is printed. -/
structure AnalyzeOutcome where
  errorMessage : Option String
  modelInvocations : Nat
  printedJSON : Bool
  deriving DecidableEq, Repr

/-- Shallow embedding of `run_analyze_entities` (NER notebook, lines
400-427).  The function prints the context, returns early with an error
message when the context is empty or longer than 380 characters (`len` on a
Python string counts characters, although the message printed in the long
case speaks of 380 words), and otherwise runs `get_best_entity` — and with
it one model inference — for each of the eight template fields before
printing the JSON result. -/
def run_analyze_entities (context : String) : AnalyzeOutcome :=
  if context.length = 0 then
    { errorMessage := some "Error: Empty context or outside paragraphs"
      modelInvocations := 0
      printedJSON := false }
  else if context.length > 380 then
    { errorMessage := some
        "Error: The context is too long for this particular model. Try with context shorter than 380 words."
      modelInvocations := 0
      printedJSON := false }
  else
    { errorMessage := none
      modelInvocations := template.length
      printedJSON := true }

/-
The NER notebook's `find_best_entity_window` (lines 303-321) and the GPT-2
notebook's `get_top_k_logits` (lines 274-288): numpy arrays are embedded as
lists of rationals (the algorithms only use ordering and arithmetic, so the
rationals are a faithful stand-in for the floating-point values).
-/

/-- One pass of `numpy.argmax`: `bi` and `bv` are the index and value of
the best element seen so far, `i` the index of the next element; the best
element is replaced only on strict improvement, so the first occurrence of
the maximum wins.  Score values are embedded generically over a linearly
ordered ring, of which the IEEE floats used by the notebook are a model on
the NaN-free inputs the algorithms receive. -/
def argmaxGo {α : Type} [LinearOrder α] (bi : Nat) (bv : α) (i : Nat) :
    List α → Nat
  | [] => bi
  | y :: ys => if bv < y then argmaxGo i y (i + 1) ys
               else argmaxGo bi bv (i + 1) ys

/-- Index of the first occurrence of the maximum, mirroring
`numpy.argmax`, which returns the first index attaining the maximum. -/
def argmaxIdx {α : Type} [LinearOrder α] : List α → Nat
  | [] => 0
  | x :: xs => argmaxGo 0 x 1 xs

/-- Elementwise map with the element index, the building block for the
index-dependent masking done by `numpy.triu` and `numpy.tril`. -/
def mapWithIdx (f : Nat → α → β) : Nat → List α → List β
  | _, [] => []
  | n, x :: xs => f n x :: mapWithIdx f (n + 1) xs

/-- Outer product of two vectors, i.e. the `np.matmul` of a column vector
reshaped to `(n, 1)` with a row vector reshaped to `(1, n)`:
entry `(i, j)` is `s i * e j`. -/
def outer {α : Type} [Mul α] (s e : List α) : List (List α) :=
  s.map (fun si => e.map (fun ej => si * ej))

/-- `numpy.triu(m)`: zero every entry strictly below the main diagonal
(column index smaller than row index). -/
def triu {α : Type} [Zero α] (m : List (List α)) : List (List α) :=
  mapWithIdx (fun i row => mapWithIdx (fun j x => if j < i then 0 else x) 0 row) 0 m

/-- `numpy.tril(m, k)`: zero every entry strictly above the k-th
superdiagonal (column index larger than row index plus `k`). -/
def tril {α : Type} [Zero α] (k : ℤ) (m : List (List α)) : List (List α) :=
  mapWithIdx (fun i row =>
    mapWithIdx (fun j x => if (i : ℤ) + k < (j : ℤ) then 0 else x) 0 row) 0 m

/-- Shallow embedding of `find_best_entity_window` (NER notebook, lines
303-321).  The context slices of the start and end score vectors are
reshaped to a column and a row and multiplied (`outer`); candidates with
the end before the start are zeroed (`np.triu`) and candidates longer than
16 positions are zeroed (`np.tril(_, 16)`); the first flat index of the
maximum (`argmax`) is split by `divmod(_, score_mat.shape[1])` with
`shape[1] = context_len`.  The `np.reshape` calls fail unless each slice
has exactly `context_len` elements, and `argmax` fails on an empty array;
those failure cases return `none`. -/
def find_best_entity_window {α : Type} [LinearOrderedRing α]
    (start_score end_score : List α)
    (context_start_idx context_end_idx : Nat) : Option (α × Nat × Nat) :=
  let context_len := context_end_idx - context_start_idx
  let s := (start_score.drop context_start_idx).take context_len
  let e := (end_score.drop context_start_idx).take context_len
  if s.length = context_len ∧ e.length = context_len ∧ context_len ≠ 0 then
    let score_mat := tril 16 (triu (outer s e))
    let flat := score_mat.flatten
    let idx := argmaxIdx flat
    let max_s := idx / context_len
    let max_e := idx % context_len
    some ((score_mat.getD max_s []).getD max_e 0, max_s, max_e)
  else none

/-- Insert into a descending-sorted list, keeping it descending. -/
def insertDesc {α : Type} [LinearOrder α] (x : α) : List α → List α
  | [] => [x]
  | y :: ys => if y ≤ x then x :: y :: ys else y :: insertDesc x ys

/-- Sort a list of rationals in descending order, mirroring
`-np.sort(-row)` applied to one row. -/
def sortDesc {α : Type} [LinearOrder α] : List α → List α
  | [] => []
  | x :: xs => insertDesc x (sortDesc xs)

/-- Minimum of a list of rationals (`np.min` reduces over all elements of
the 2-D array; it fails on an empty array, a case the caller of this
helper guards). -/
def listMin {α : Type} [LinearOrder α] [Zero α] : List α → α
  | [] => 0
  | [x] => x
  | x :: y :: t => min x (listMin (y :: t))

/-- The clamping `top_k = min(max(top_k, 1), scores.shape[-1])` performed
on entry to `get_top_k_logits` (GPT-2 notebook, line 283);
`scores.shape[-1]` is the common row length of the 2-D array. -/
def clampTopK (scores : List (List ℚ)) (top_k : ℤ) : Nat :=
  (min (max top_k 1) (((scores.headD []).length : Nat) : ℤ)).toNat

/-- Shallow embedding of `get_top_k_logits` (GPT-2 notebook, lines
274-288) over a 2-D logits array represented as a list of rows.
`top_k` is clamped by `min(max(top_k, 1), scores.shape[-1])`; each row is
sorted descending and its first `top_k` entries kept
(`-np.sort(-scores)[:, :top_k]`); entries strictly smaller than the
minimum over that whole array (`np.min(top_k_scores)`) are masked and
filled with `-inf` (embedded as `⊥` in `WithBot ℚ`), all other entries are
returned unchanged.  `np.min` fails on an empty array; that failure case
returns `none`. -/
def get_top_k_logits (scores : List (List ℚ)) (top_k : ℤ) :
    Option (List (List (WithBot ℚ))) :=
  let k := clampTopK scores top_k
  let top_k_scores := scores.map (fun row => (sortDesc row).take k)
  if top_k_scores.flatten = [] then none
  else
    let m := listMin top_k_scores.flatten
    some (scores.map (fun row =>
      row.map (fun x => if x < m then (⊥ : WithBot ℚ) else (x : WithBot ℚ))))

/-- The threshold computed by `get_top_k_logits`: the minimum, taken over
all rows, of each row's `top_k` largest values (with `top_k` already
clamped to `[1, cols]`). -/
def topKThreshold (scores : List (List ℚ)) (k : Nat) : ℚ :=
  listMin (scores.map (fun row => (sortDesc row).take k)).flatten

/-
Theorems.
-/

/-- Claim C1 counterexample: the claim says every notebook performs the
download / export-to-ONNX / convert-to-IR / (optional quantize) /
validate / benchmark pipeline in order, omitting no non-optional step.
The named-entity-recognition notebook downloads an already-converted IR
model and performs no ONNX export, no IR conversion, no accuracy
validation and no benchmarking, so already the no-omission half of the
claim fails on it. -/
theorem c1_counterexample :
    nb204ner ∈ notebooks ∧ ¬ performsFullPipeline nb204ner := by
  decide

/-- Claim C1, amended: every notebook begins its pipeline by downloading a
pretrained model, and every notebook that quantizes also downloads,
converts to OpenVINO IR and benchmarks with benchmark_app; but no uniform
six-step order holds, and several notebooks omit non-optional steps. -/
theorem c1_amended :
    ∀ nb ∈ notebooks,
      nb.steps.head? = some Step.download ∧
      (Step.quantize ∈ nb.steps →
        Step.download ∈ nb.steps ∧ Step.convertIR ∈ nb.steps ∧
        Step.benchmark ∈ nb.steps) := by
  decide

/-- Witness for the amended claim C1 at the CT-segmentation notebook. -/
theorem c1_amended_witness :
    nb110ct.steps.head? = some Step.download ∧
      (Step.quantize ∈ nb110ct.steps →
        Step.download ∈ nb110ct.steps ∧ Step.convertIR ∈ nb110ct.steps ∧
        Step.benchmark ∈ nb110ct.steps) :=
  c1_amended nb110ct (by decide)

/-- Claim C2: every quantization, NMS and IR-conversion step any notebook
performs is a call into the external NNCF / POT / OpenVINO libraries (or,
for NMS, into the cloned upstream YOLOv7 utilities), and no notebook
defines its own implementation of quantization calibration, range
estimation, NMS or IR conversion. -/
theorem c2_delegated_to_libraries :
    ∀ nb ∈ notebooks,
      nb.definesOwnQuantizationAlgo = false ∧
      nb.definesOwnNms = false ∧
      nb.definesOwnIRConverter = false ∧
      (nb.usesNms = true → nb.nmsFromExternalLib = true) ∧
      (Step.quantize ∈ nb.steps →
        nb.quantizesViaNncfApi = true ∨ nb.potMode ≠ ToolMode.notUsed) ∧
      (Step.convertIR ∈ nb.steps → nb.moMode ≠ ToolMode.notUsed) := by
  decide

/-- Witness for claim C2 at the YOLOv7 notebook (the one notebook that
performs NMS). -/
theorem c2_delegated_to_libraries_witness :
    nb226yolov7.definesOwnQuantizationAlgo = false ∧
      nb226yolov7.definesOwnNms = false ∧
      nb226yolov7.definesOwnIRConverter = false ∧
      (nb226yolov7.usesNms = true → nb226yolov7.nmsFromExternalLib = true) ∧
      (Step.quantize ∈ nb226yolov7.steps →
        nb226yolov7.quantizesViaNncfApi = true ∨
          nb226yolov7.potMode ≠ ToolMode.notUsed) ∧
      (Step.convertIR ∈ nb226yolov7.steps →
        nb226yolov7.moMode ≠ ToolMode.notUsed) :=
  c2_delegated_to_libraries nb226yolov7 (by decide)

/-- Claim C3 counterexample: the claim says every notebook's
throughput/latency measurement is an invocation of the benchmark_app CLI
and nothing else.  The PaddleGAN photo-to-anime notebook never invokes
benchmark_app and instead measures inference time of the Paddle and
OpenVINO models with its own `time.perf_counter` loops. -/
theorem c3_counterexample :
    nb206anime ∈ notebooks ∧ ¬ benchmarksOnlyViaBenchmarkApp nb206anime := by
  decide

/-- Claim C3, amended: every notebook that quantizes benchmarks with the
benchmark_app CLI, and benchmark_app is invoked as a CLI tool exactly in
the notebooks whose pipeline has a benchmark step; but several demo
notebooks measure performance with their own timing loops instead of (or
in addition to) benchmark_app. -/
theorem c3_amended :
    ∀ nb ∈ notebooks,
      (Step.quantize ∈ nb.steps → nb.benchmarkMode = ToolMode.cli) ∧
      (Step.benchmark ∈ nb.steps ↔ nb.benchmarkMode = ToolMode.cli) := by
  decide

/-- Witness for the amended claim C3 at the TensorFlow QAT notebook. -/
theorem c3_amended_witness :
    (Step.quantize ∈ nb305tfqat.steps →
      nb305tfqat.benchmarkMode = ToolMode.cli) ∧
    (Step.benchmark ∈ nb305tfqat.steps ↔
      nb305tfqat.benchmarkMode = ToolMode.cli) :=
  c3_amended nb305tfqat (by decide)

/-- Claim C4 counterexample: the claim says Model Optimizer, POT and
benchmarking are always driven as CLI shell commands, never through their
Python APIs.  The YOLOv7 notebook converts its model with the
`openvino.tools.mo.convert_model` Python API. -/
theorem c4_counterexample :
    nb226yolov7 ∈ notebooks ∧ ¬ drivesToolsViaCliOnly nb226yolov7 := by
  decide

/-- Claim C4, amended: benchmarking is always driven through the
benchmark_app CLI, but Model Optimizer is driven through its Python API in
the GPT-2 and YOLOv7 notebooks and POT is driven through its Python API in
the BERT and Wav2Vec2 notebooks (the remaining notebooks use the `mo` and
`pot` CLI tools). -/
theorem c4_amended :
    ∀ nb ∈ notebooks,
      (nb.benchmarkMode ≠ ToolMode.notUsed →
        nb.benchmarkMode = ToolMode.cli) ∧
      (nb.moMode = ToolMode.pythonApi →
        nb.name = "223-gpt2-text-prediction" ∨
        nb.name = "226-yolov7-optimization") ∧
      (nb.potMode = ToolMode.pythonApi →
        nb.name = "105-language-quantize-bert" ∨
        nb.name = "107-speech-recognition-quantization") := by
  decide

/-- Witness for the amended claim C4 at the GPT-2 notebook. -/
theorem c4_amended_witness :
    (nb223gpt2.benchmarkMode ≠ ToolMode.notUsed →
      nb223gpt2.benchmarkMode = ToolMode.cli) ∧
    (nb223gpt2.moMode = ToolMode.pythonApi →
      nb223gpt2.name = "223-gpt2-text-prediction" ∨
      nb223gpt2.name = "226-yolov7-optimization") ∧
    (nb223gpt2.potMode = ToolMode.pythonApi →
      nb223gpt2.name = "105-language-quantize-bert" ∨
      nb223gpt2.name = "107-speech-recognition-quantization") :=
  c4_amended nb223gpt2 (by decide)

/-- Claim C5: no notebook defines a scheduler, protocol, cache or
concurrency primitive of its own; all asynchronous inference goes through
the OpenVINO runtime primitives (`InferRequest.start_async`,
`AsyncInferQueue`) or Open Model Zoo's AsyncPipeline reached through
`show_live_inference`. -/
theorem c5_no_own_concurrency :
    ∀ nb ∈ notebooks,
      nb.definesOwnScheduler = false ∧
      nb.definesOwnProtocol = false ∧
      nb.definesOwnCache = false ∧
      nb.definesOwnConcurrencyPrimitive = false ∧
      (nb.asyncUse = AsyncUse.noAsync ∨
        nb.asyncUse = AsyncUse.ovInferRequestAsync ∨
        nb.asyncUse = AsyncUse.ovAsyncInferQueue ∨
        nb.asyncUse = AsyncUse.omzAsyncPipeline) := by
  decide

/-- Witness for claim C5 at the PaddlePaddle classification notebook (the
notebook that uses `AsyncInferQueue`). -/
theorem c5_no_own_concurrency_witness :
    nb214paddle.definesOwnScheduler = false ∧
      nb214paddle.definesOwnProtocol = false ∧
      nb214paddle.definesOwnCache = false ∧
      nb214paddle.definesOwnConcurrencyPrimitive = false ∧
      (nb214paddle.asyncUse = AsyncUse.noAsync ∨
        nb214paddle.asyncUse = AsyncUse.ovInferRequestAsync ∨
        nb214paddle.asyncUse = AsyncUse.ovAsyncInferQueue ∨
        nb214paddle.asyncUse = AsyncUse.omzAsyncPipeline) :=
  c5_no_own_concurrency nb214paddle (by decide)

/-- Claim C6: `run_analyze_entities` performs model inference exactly when
the context has between 1 and 380 characters (the length check counts
characters, not the words the error message speaks of); otherwise it
prints an error message, performs no inference, and prints no JSON output;
the JSON extraction result is printed exactly in the non-error case, after
one inference per template field (eight in total). -/
theorem c6_run_analyze_entities (context : String) :
    ((run_analyze_entities context).modelInvocations ≠ 0 ↔
      0 < context.length ∧ context.length ≤ 380) ∧
    ((run_analyze_entities context).modelInvocations = 0 ∨
      (run_analyze_entities context).modelInvocations = 8) ∧
    ((run_analyze_entities context).printedJSON = true ↔
      (run_analyze_entities context).errorMessage = none) ∧
    ((run_analyze_entities context).errorMessage = none ↔
      0 < context.length ∧ context.length ≤ 380) := by
  unfold run_analyze_entities
  by_cases h0 : context.length = 0
  · simp [h0]
  · by_cases h1 : context.length > 380
    · simp [h0, h1]
    · simp [h0, h1, template]
      omega

/-- `insertDesc` inserts its element, leaving a permutation. -/
theorem insertDesc_perm {α : Type} [LinearOrder α] (x : α) (l : List α) :
    List.Perm (insertDesc x l) (x :: l) := by
  induction l with
  | nil => simp [insertDesc]
  | cons y ys ih =>
    by_cases h : y ≤ x
    · simp [insertDesc, h]
    · simp only [insertDesc, if_neg h]
      exact (List.Perm.cons y ih).trans (List.Perm.swap x y ys)

/-- `sortDesc` permutes its input. -/
theorem sortDesc_perm {α : Type} [LinearOrder α] (l : List α) :
    List.Perm (sortDesc l) l := by
  induction l with
  | nil => simp [sortDesc]
  | cons x xs ih =>
    exact (insertDesc_perm x (sortDesc xs)).trans (List.Perm.cons x ih)

/-- `sortDesc` preserves length. -/
theorem sortDesc_length {α : Type} [LinearOrder α] (l : List α) :
    (sortDesc l).length = l.length :=
  (sortDesc_perm l).length_eq

/-- `listMin` is a lower bound on all elements of the list. -/
theorem listMin_le_of_mem {α : Type} [LinearOrder α] [Zero α] :
    ∀ {l : List α} {x : α}, x ∈ l → listMin l ≤ x := by
  intro l
  induction l with
  | nil => intro x h; cases h
  | cons a t ih =>
    intro x hx
    cases t with
    | nil =>
      rcases List.mem_cons.mp hx with h | h
      · subst h; exact le_of_eq rfl
      · cases h
    | cons b t2 =>
      rcases List.mem_cons.mp hx with h | h
      · subst h; exact min_le_left _ _
      · exact le_trans (min_le_right _ _) (ih h)

/-- At least `k` entries of a row compare greater than or equal to the
minimum of the first `k` entries of the row sorted descending. -/
theorem countP_ge_take_min (row : List ℚ) (k : Nat) (hk : k ≤ row.length) :
    k ≤ row.countP (fun x => decide (listMin ((sortDesc row).take k) ≤ x)) := by
  have hlen : ((sortDesc row).take k).length = k := by
    rw [List.length_take, sortDesc_length]
    exact Nat.min_eq_left hk
  have hall : ∀ x ∈ (sortDesc row).take k,
      (fun x => decide (listMin ((sortDesc row).take k) ≤ x)) x = true := by
    intro x hx
    simpa using listMin_le_of_mem hx
  have h1 : ((sortDesc row).take k).countP
      (fun x => decide (listMin ((sortDesc row).take k) ≤ x)) = k := by
    rw [List.countP_eq_length.mpr hall]
    exact hlen
  have h2 : ((sortDesc row).take k).countP
        (fun x => decide (listMin ((sortDesc row).take k) ≤ x)) ≤
      (sortDesc row).countP
        (fun x => decide (listMin ((sortDesc row).take k) ≤ x)) :=
    List.Sublist.countP_le _ (List.take_sublist k (sortDesc row))
  have h3 : (sortDesc row).countP
        (fun x => decide (listMin ((sortDesc row).take k) ≤ x)) =
      row.countP (fun x => decide (listMin ((sortDesc row).take k) ≤ x)) :=
    (sortDesc_perm row).countP_eq _
  omega

/-- When the array of per-row top-k values is nonempty, `get_top_k_logits`
succeeds and replaces exactly the entries below the threshold by `-inf`. -/
theorem get_top_k_logits_eq_some (scores : List (List ℚ)) (top_k : ℤ)
    (h : (scores.map
        (fun row => (sortDesc row).take (clampTopK scores top_k))).flatten ≠ []) :
    get_top_k_logits scores top_k =
      some (scores.map (fun row => row.map (fun x =>
        if x < topKThreshold scores (clampTopK scores top_k) then (⊥ : WithBot ℚ)
        else (x : WithBot ℚ)))) := by
  simp only [get_top_k_logits, topKThreshold]
  rw [if_neg h]

/-- Claim C8: on a nonempty rectangular 2-D logits array,
`get_top_k_logits` first clamps `top_k` to `[1, cols]` and then returns
the input array with exactly the entries strictly smaller than the
minimum, over all rows, of each row's `top_k` largest values replaced by
negative infinity; all other entries (ties with the threshold included)
are returned unchanged, and a single-row array retains at least `top_k`
entries at or above the threshold. -/
theorem c8_get_top_k_logits (scores : List (List ℚ)) (top_k : ℤ) (cols : Nat)
    (hne : scores ≠ []) (hcols : 0 < cols)
    (hrect : ∀ row ∈ scores, row.length = cols) :
    1 ≤ clampTopK scores top_k ∧
    clampTopK scores top_k ≤ cols ∧
    get_top_k_logits scores top_k =
      some (scores.map (fun row => row.map (fun x =>
        if x < topKThreshold scores (clampTopK scores top_k) then (⊥ : WithBot ℚ)
        else (x : WithBot ℚ)))) ∧
    (∀ row, scores = [row] →
      clampTopK scores top_k ≤
        row.countP (fun x =>
          decide (topKThreshold scores (clampTopK scores top_k) ≤ x))) := by
  obtain ⟨r, rest, rfl⟩ : ∃ r rest, scores = r :: rest := by
    cases scores with
    | nil => exact absurd rfl hne
    | cons r rest => exact ⟨r, rest, rfl⟩
  have hr : r.length = cols := hrect r (List.mem_cons_self r rest)
  have hkval : clampTopK (r :: rest) top_k =
      (min (max top_k 1) ((r.length : Nat) : ℤ)).toNat := rfl
  have hmin1 : (1 : ℤ) ≤ min (max top_k 1) ((r.length : Nat) : ℤ) := by
    refine le_min (le_max_right _ _) ?_
    have : 0 < r.length := hr ▸ hcols
    exact_mod_cast this
  have hmin2 : min (max top_k 1) ((r.length : Nat) : ℤ) ≤ ((r.length : Nat) : ℤ) :=
    min_le_right _ _
  have hk1 : 1 ≤ clampTopK (r :: rest) top_k := by
    rw [hkval]; omega
  have hk2 : clampTopK (r :: rest) top_k ≤ cols := by
    rw [hkval]; omega
  have hkr : clampTopK (r :: rest) top_k ≤ r.length := hr ▸ hk2
  have htakelen : ((sortDesc r).take (clampTopK (r :: rest) top_k)).length =
      clampTopK (r :: rest) top_k := by
    rw [List.length_take, sortDesc_length]
    exact Nat.min_eq_left hkr
  have htake : (sortDesc r).take (clampTopK (r :: rest) top_k) ≠ [] := by
    intro h
    rw [h] at htakelen
    simp at htakelen
    omega
  have hflat : (((r :: rest)).map
      (fun row => (sortDesc row).take (clampTopK (r :: rest) top_k))).flatten ≠ [] := by
    simp only [List.map_cons, List.flatten_cons]
    intro h
    exact htake (List.append_eq_nil.mp h).1
  refine ⟨hk1, hk2, get_top_k_logits_eq_some _ _ hflat, ?_⟩
  intro row hrow
  obtain ⟨hr2, hrest⟩ := List.cons_eq_cons.mp hrow
  subst hr2
  subst hrest
  have hT : topKThreshold [r] (clampTopK [r] top_k) =
      listMin ((sortDesc r).take (clampTopK [r] top_k)) := by
    simp [topKThreshold]
  rw [hT]
  exact countP_ge_take_min r (clampTopK [r] top_k) hkr

/-- `argmaxGo` keeps its current best index when no later element
strictly improves on the current best value. -/
theorem argmaxGo_no_improve {α : Type} [LinearOrder α] :
    ∀ (ys : List α) (bi : Nat) (bv : α) (i : Nat),
      (∀ y ∈ ys, y ≤ bv) → argmaxGo bi bv i ys = bi := by
  intro ys
  induction ys with
  | nil => intro bi bv i h; rfl
  | cons y ys ih =>
    intro bi bv i h
    have hy : y ≤ bv := h y (List.mem_cons_self y ys)
    simp only [argmaxGo, if_neg (not_lt.mpr hy)]
    exact ih bi bv (i + 1) (fun z hz => h z (List.mem_cons_of_mem y hz))

/-- Invariant of the `argmaxGo` scan over the suffix `ys = L.drop i` of a
list `L`: the returned index is in range, its value is at least the
running best value, and it bounds every element of the suffix. -/
theorem argmaxGo_max {α : Type} [LinearOrder α] [Zero α] :
    ∀ (ys L : List α) (bi i : Nat) (bv : α),
      L.getD bi 0 = bv → L.drop i = ys → bi < L.length →
      argmaxGo bi bv i ys < L.length ∧
      bv ≤ L.getD (argmaxGo bi bv i ys) 0 ∧
      ∀ y ∈ ys, y ≤ L.getD (argmaxGo bi bv i ys) 0 := by
  intro ys
  induction ys with
  | nil =>
    intro L bi i bv hbv hdrop hbi
    refine ⟨hbi, le_of_eq hbv.symm, ?_⟩
    intro y hy
    cases hy
  | cons y ys ih =>
    intro L bi i bv hbv hdrop hbi
    have hiL : i < L.length := by
      by_contra hle
      have h0 : L.drop i = [] := List.drop_eq_nil_iff.mpr (le_of_not_lt hle)
      rw [hdrop] at h0
      cases h0
    have hyi : L[i]? = some y := by
      have h0 : (L.drop i)[0]? = L[i + 0]? := List.getElem?_drop L i 0
      rw [hdrop] at h0
      simpa using h0.symm
    have hgyi : L.getD i 0 = y := by
      simp [List.getD_eq_getElem?_getD, hyi]
    have hdrop2 : L.drop (i + 1) = ys := by
      have h0 := List.drop_drop 1 i L
      rw [hdrop] at h0
      simpa using h0.symm
    by_cases hlt : bv < y
    · have hres : argmaxGo bi bv i (y :: ys) = argmaxGo i y (i + 1) ys := by
        simp [argmaxGo, hlt]
      obtain ⟨r1, r2, r3⟩ := ih L i (i + 1) y hgyi hdrop2 hiL
      rw [hres]
      refine ⟨r1, le_trans (le_of_lt hlt) r2, ?_⟩
      intro z hz
      rcases List.mem_cons.mp hz with h | h
      · subst h; exact r2
      · exact r3 z h
    · have hres : argmaxGo bi bv i (y :: ys) = argmaxGo bi bv (i + 1) ys := by
        simp [argmaxGo, hlt]
      obtain ⟨r1, r2, r3⟩ := ih L bi (i + 1) bv hbv hdrop2 hbi
      rw [hres]
      refine ⟨r1, r2, ?_⟩
      intro z hz
      rcases List.mem_cons.mp hz with h | h
      · subst h; exact le_trans (not_lt.mp hlt) r2
      · exact r3 z h

/-- `argmaxIdx` returns an in-range index whose value bounds every
element, mirroring `numpy.argmax`. -/
theorem argmaxIdx_max {α : Type} [LinearOrder α] [Zero α] (l : List α)
    (hl : l ≠ []) :
    argmaxIdx l < l.length ∧ ∀ y ∈ l, y ≤ l.getD (argmaxIdx l) 0 := by
  cases l with
  | nil => exact absurd rfl hl
  | cons x xs =>
    have h := argmaxGo_max xs (x :: xs) 0 1 x (by simp) (by simp) (by simp)
    simp only [argmaxIdx]
    refine ⟨h.1, ?_⟩
    intro y hy
    rcases List.mem_cons.mp hy with h2 | h2
    · subst h2; exact h.2.1
    · exact h.2.2 y h2

/-- When the head already bounds the tail, `argmaxIdx` returns index 0
(the first occurrence of the maximum wins). -/
theorem argmaxIdx_head_max {α : Type} [LinearOrder α] (x : α) (xs : List α)
    (h : ∀ y ∈ xs, y ≤ x) : argmaxIdx (x :: xs) = 0 := by
  simp only [argmaxIdx]
  exact argmaxGo_no_improve xs 0 x 1 h

/-- `mapWithIdx` preserves length. -/
theorem mapWithIdx_length {α β : Type} (f : Nat → α → β) :
    ∀ (n : Nat) (l : List α), (mapWithIdx f n l).length = l.length := by
  intro n l
  induction l generalizing n with
  | nil => rfl
  | cons x xs ih => simp [mapWithIdx, ih]

/-- Entry of `mapWithIdx` at an index. -/
theorem mapWithIdx_getElem? {α β : Type} (f : Nat → α → β) :
    ∀ (l : List α) (n j : Nat),
      (mapWithIdx f n l)[j]? = (l[j]?).map (f (n + j)) := by
  intro l
  induction l with
  | nil => intro n j; simp [mapWithIdx]
  | cons x xs ih =>
    intro n j
    cases j with
    | zero => simp [mapWithIdx]
    | succ j =>
      simp only [mapWithIdx, List.getElem?_cons_succ]
      rw [ih (n + 1) j]
      have h0 : n + 1 + j = n + (j + 1) := by omega
      rw [h0]

/-- Every member of a `mapWithIdx` image comes from a member of the
original list. -/
theorem mapWithIdx_mem {α β : Type} (f : Nat → α → β) :
    ∀ (l : List α) (n : Nat) (b : β), b ∈ mapWithIdx f n l →
      ∃ m a, a ∈ l ∧ b = f m a := by
  intro l
  induction l with
  | nil => intro n b h; cases h
  | cons x xs ih =>
    intro n b h
    rcases List.mem_cons.mp h with h | h
    · exact ⟨n, x, List.mem_cons_self x xs, h⟩
    · obtain ⟨m, a, ha, hb⟩ := ih (n + 1) b h
      exact ⟨m, a, List.mem_cons_of_mem x ha, hb⟩

/-- Length of the flattening of a matrix with uniform row length. -/
theorem flatten_length_uniform {α : Type} :
    ∀ (m : List (List α)) (n : Nat), (∀ r ∈ m, r.length = n) →
      m.flatten.length = m.length * n := by
  intro m
  induction m with
  | nil => intro n h; simp
  | cons r rest ih =>
    intro n h
    have hr : r.length = n := h r (List.mem_cons_self r rest)
    have htail := ih n (fun x hx => h x (List.mem_cons_of_mem r hx))
    simp only [List.flatten_cons, List.length_append, List.length_cons, hr, htail]
    ring

/-- Row-major indexing into the flattening of a matrix with uniform row
length `n`: flat index `k` addresses row `k / n`, column `k % n` (the
`divmod` used by `find_best_entity_window`). -/
theorem flatten_getD_uniform {α : Type} (d : α) :
    ∀ (m : List (List α)) (n k : Nat), 0 < n → (∀ r ∈ m, r.length = n) →
      k < m.length * n →
      m.flatten.getD k d = (m.getD (k / n) []).getD (k % n) d := by
  intro m
  induction m with
  | nil => intro n k hn h hk; simp at hk
  | cons r rest ih =>
    intro n k hn h hk
    have hr : r.length = n := h r (List.mem_cons_self r rest)
    by_cases hkn : k < n
    · have hdiv : k / n = 0 := Nat.div_eq_of_lt hkn
      have hmod : k % n = k := Nat.mod_eq_of_lt hkn
      rw [hdiv, hmod]
      simp only [List.flatten_cons, List.getD_cons_zero]
      rw [List.getD_eq_getElem?_getD, List.getD_eq_getElem?_getD,
        List.getElem?_append_left (by omega : k < r.length)]
    · have hlen : (r :: rest).length * n = rest.length * n + n := by
        simp only [List.length_cons]
        ring
      have hk2 : k - n < rest.length * n := by omega
      have hdiv : k / n = (k - n) / n + 1 := by
        have hstep := Nat.add_div_right (k - n) hn
        rw [Nat.sub_add_cancel (le_of_not_lt hkn)] at hstep
        exact hstep
      have hmod : k % n = (k - n) % n := by
        have hstep := Nat.add_mod_right (k - n) n
        rw [Nat.sub_add_cancel (le_of_not_lt hkn)] at hstep
        exact hstep
      rw [hdiv, hmod]
      simp only [List.flatten_cons, List.getD_cons_succ]
      have hstep : (r ++ rest.flatten).getD k d = rest.flatten.getD (k - n) d := by
        rw [List.getD_eq_getElem?_getD,
          List.getElem?_append_right (by omega : r.length ≤ k), hr,
          ← List.getD_eq_getElem?_getD]
      rw [hstep, ih n (k - n) hn (fun x hx => h x (List.mem_cons_of_mem r hx)) hk2]

/-- Entry `(i, j)` of the masked score matrix of
`find_best_entity_window`: zero above the 16th superdiagonal, zero below
the main diagonal, and the product of the two scores otherwise. -/
theorem scoreMat_entry {α : Type} [LinearOrderedRing α] (s e : List α)
    (i j : Nat) (hi : i < s.length) (hj : j < e.length) :
    ((tril 16 (triu (outer s e))).getD i []).getD j 0 =
      if (i : ℤ) + 16 < (j : ℤ) then 0
      else if j < i then 0 else s.getD i 0 * e.getD j 0 := by
  have hs : s[i]? = some s[i] := List.getElem?_eq_getElem hi
  have he : e[j]? = some e[j] := List.getElem?_eq_getElem hj
  simp [tril, triu, outer, List.getD_eq_getElem?_getD, mapWithIdx_getElem?,
    List.getElem?_map, hs, he]

/-- Every entry of the masked score matrix is nonnegative when both score
vectors are nonnegative: the masks write zeros and the remaining entries
are products of nonnegative scores. -/
theorem scoreMat_flatten_nonneg {α : Type} [LinearOrderedRing α]
    (s e : List α) (hs : ∀ x ∈ s, 0 ≤ x) (he : ∀ x ∈ e, 0 ≤ x) :
    ∀ x ∈ (tril 16 (triu (outer s e))).flatten, 0 ≤ x := by
  intro x hx
  obtain ⟨r, hr, hxr⟩ := List.mem_flatten.mp hx
  simp only [tril] at hr
  obtain ⟨i1, r1, hr1, rfl⟩ := mapWithIdx_mem _ _ _ _ hr
  obtain ⟨j1, y1, hy1, rfl⟩ := mapWithIdx_mem _ _ _ _ hxr
  by_cases c1 : (i1 : ℤ) + 16 < (j1 : ℤ)
  · simp [c1]
  · simp only [if_neg c1]
    simp only [triu] at hr1
    obtain ⟨i2, r2, hr2, rfl⟩ := mapWithIdx_mem _ _ _ _ hr1
    obtain ⟨j2, y2, hy2, rfl⟩ := mapWithIdx_mem _ _ _ _ hy1
    by_cases c2 : j2 < i2
    · simp [c2]
    · simp only [if_neg c2]
      simp only [outer] at hr2
      obtain ⟨si, hsi, rfl⟩ := List.mem_map.mp hr2
      obtain ⟨ej, hej, rfl⟩ := List.mem_map.mp hy2
      exact mul_nonneg (hs si hsi) (he ej hej)

/-- Core window bound: on nonnegative score slices of length `n`, the flat
argmax of the masked score matrix, split by `divmod n`, lands on an
unmasked cell (or on cell `(0, 0)` when all products vanish), so the row
index never exceeds the column index and the column index exceeds the row
index by at most 16. -/
theorem argmax_window_bounds {α : Type} [LinearOrderedRing α]
    (s e : List α) (n : Nat) (hn : 0 < n)
    (hslen : s.length = n) (helen : e.length = n)
    (hs0 : ∀ x ∈ s, 0 ≤ x) (he0 : ∀ x ∈ e, 0 ≤ x) :
    argmaxIdx (tril 16 (triu (outer s e))).flatten / n ≤
        argmaxIdx (tril 16 (triu (outer s e))).flatten % n ∧
      argmaxIdx (tril 16 (triu (outer s e))).flatten % n ≤
        argmaxIdx (tril 16 (triu (outer s e))).flatten / n + 16 := by
  set mat := tril 16 (triu (outer s e)) with hmatdef
  set flat := mat.flatten with hflatdef
  set f := argmaxIdx flat with hfdef
  have hmatlen : mat.length = n := by
    rw [hmatdef]
    simp only [tril, triu, outer]
    rw [mapWithIdx_length, mapWithIdx_length, List.length_map, hslen]
  have hrowlen : ∀ r ∈ mat, r.length = n := by
    intro r hr
    rw [hmatdef] at hr
    simp only [tril] at hr
    obtain ⟨i1, r1, hr1, rfl⟩ := mapWithIdx_mem _ _ _ _ hr
    rw [mapWithIdx_length]
    simp only [triu] at hr1
    obtain ⟨i2, r2, hr2, rfl⟩ := mapWithIdx_mem _ _ _ _ hr1
    rw [mapWithIdx_length]
    simp only [outer] at hr2
    obtain ⟨si, hsi, rfl⟩ := List.mem_map.mp hr2
    rw [List.length_map]
    exact helen
  have hflatlen : flat.length = n * n := by
    rw [hflatdef, flatten_length_uniform mat n hrowlen, hmatlen]
  have hflatne : flat ≠ [] := by
    intro h0
    rw [h0] at hflatlen
    simp only [List.length_nil] at hflatlen
    rcases Nat.mul_eq_zero.mp hflatlen.symm with h1 | h1 <;> omega
  obtain ⟨hfl, hfmax⟩ := argmaxIdx_max flat hflatne
  have hfn : f < n * n := by rw [← hflatlen]; exact hfl
  have hi : f / n < n := (Nat.div_lt_iff_lt_mul hn).mpr hfn
  have hj : f % n < n := Nat.mod_lt _ hn
  have hkmat : f < mat.length * n := by rw [hmatlen]; exact hfn
  have hentry : flat.getD f 0 = (mat.getD (f / n) []).getD (f % n) 0 := by
    rw [hflatdef]
    exact flatten_getD_uniform 0 mat n f hn hrowlen hkmat
  have hmat_entry := scoreMat_entry s e (f / n) (f % n)
    (by omega : f / n < s.length) (by omega : f % n < e.length)
  rw [← hmatdef] at hmat_entry
  by_cases hpos : 0 < flat.getD f 0
  · rw [hentry, hmat_entry] at hpos
    by_cases c1 : ((f / n : Nat) : ℤ) + 16 < ((f % n : Nat) : ℤ)
    · rw [if_pos c1] at hpos
      exact absurd hpos (lt_irrefl 0)
    · rw [if_neg c1] at hpos
      by_cases c2 : f % n < f / n
      · rw [if_pos c2] at hpos
        exact absurd hpos (lt_irrefl 0)
      · exact ⟨le_of_not_lt c2, by omega⟩
  · have hnonneg : ∀ x ∈ flat, 0 ≤ x := by
      rw [hflatdef, hmatdef]
      exact scoreMat_flatten_nonneg s e hs0 he0
    obtain ⟨x, xs, hcons⟩ := List.exists_cons_of_ne_nil hflatne
    have hf0 : f = 0 := by
      rw [hfdef, hcons]
      apply argmaxIdx_head_max
      intro y hy
      have h1 : y ≤ flat.getD f 0 := by
        apply hfmax
        rw [hcons]
        exact List.mem_cons_of_mem x hy
      have h2 : flat.getD f 0 ≤ 0 := le_of_not_lt hpos
      have h3 : 0 ≤ x := by
        apply hnonneg
        rw [hcons]
        exact List.mem_cons_self x xs
      exact le_trans (le_trans h1 h2) h3
    rw [hf0]
    simp

set_option maxRecDepth 100000 in
/-- Claim C7 counterexample: the claim quantifies over all start-score and
end-score vectors, but if the score vectors may contain negative entries
(softmax output never does, yet the claim does not restrict to it) the
zeroed-out cells can dominate the argmax: with 18 start scores of `-1` and
18 end scores of `1`, every unmasked product is `-1`, the first zeroed
cell `(0, 17)` wins the argmax, and the returned window `(0, 17)` ends 17
positions after its start, violating `max_e ≤ max_s + 16`. -/
theorem c7_counterexample :
    0 < 18 ∧
    find_best_entity_window (List.replicate 18 (-1 : ℤ))
        (List.replicate 18 1) 0 18 = some (0, 0, 17) ∧
    ¬ ((17 : Nat) ≤ 0 + 16) := by
  refine ⟨by decide, ?_, by decide⟩
  decide

/-- Claim C7, amended: when every entry of the start-score and end-score
vectors is nonnegative (which holds in the notebook, where both are
softmax outputs), `find_best_entity_window` succeeds on indices with
`context_start_idx < context_end_idx ≤ length` and returns a window with
`max_s ≤ max_e ≤ max_s + 16`: the span never ends before it starts and
never extends more than 16 token positions past its start, because
candidates below the main diagonal and beyond the 16th superdiagonal are
zeroed before the argmax. -/
theorem c7_find_best_entity_window_amended {α : Type} [LinearOrderedRing α]
    (start_score end_score : List α) (context_start_idx context_end_idx : Nat)
    (h1 : context_start_idx < context_end_idx)
    (h2 : context_end_idx ≤ start_score.length)
    (h3 : context_end_idx ≤ end_score.length)
    (h4 : ∀ x ∈ start_score, 0 ≤ x) (h5 : ∀ x ∈ end_score, 0 ≤ x) :
    ∃ sc ms me,
      find_best_entity_window start_score end_score
          context_start_idx context_end_idx = some (sc, ms, me) ∧
      ms ≤ me ∧ me ≤ ms + 16 := by
  have hn : 0 < context_end_idx - context_start_idx := by omega
  have hslen : ((start_score.drop context_start_idx).take
      (context_end_idx - context_start_idx)).length =
      context_end_idx - context_start_idx := by
    rw [List.length_take, List.length_drop]
    exact Nat.min_eq_left (by omega)
  have helen : ((end_score.drop context_start_idx).take
      (context_end_idx - context_start_idx)).length =
      context_end_idx - context_start_idx := by
    rw [List.length_take, List.length_drop]
    exact Nat.min_eq_left (by omega)
  have hs0 : ∀ x ∈ (start_score.drop context_start_idx).take
      (context_end_idx - context_start_idx), 0 ≤ x :=
    fun x hx => h4 x (List.drop_subset _ _ (List.take_subset _ _ hx))
  have he0 : ∀ x ∈ (end_score.drop context_start_idx).take
      (context_end_idx - context_start_idx), 0 ≤ x :=
    fun x hx => h5 x (List.drop_subset _ _ (List.take_subset _ _ hx))
  have hcore := argmax_window_bounds _ _ _ hn hslen helen hs0 he0
  simp only [find_best_entity_window]
  rw [if_pos ⟨hslen, helen, by omega⟩]
  exact ⟨_, _, _, rfl, hcore.1, hcore.2⟩

/-- Witness for the amended claim C7 at two unit score vectors: the
returned window is `(0, 0)`. -/
theorem c7_find_best_entity_window_amended_witness :
    ∃ sc ms me,
      find_best_entity_window [(1 : ℤ), 1] [(1 : ℤ), 1] 0 2 =
          some (sc, ms, me) ∧
      ms ≤ me ∧ me ≤ ms + 16 :=
  c7_find_best_entity_window_amended [(1 : ℤ), 1] [(1 : ℤ), 1] 0 2
    (by decide) (by decide) (by decide) (by decide) (by decide)

/-- Witness for claim C8 at the single-row array `[[3, 1, 2]]` with
`top_k = 2`: the clamped `top_k` is at least 1. -/
theorem c8_get_top_k_logits_witness :
    1 ≤ clampTopK [[(3 : ℚ), 1, 2]] 2 :=
  (c8_get_top_k_logits [[(3 : ℚ), 1, 2]] 2 3 (by decide) (by decide)
    (by decide)).1
